import Mathlib

/-!
Verification development for the occurrence-metrics scanner
(`scripts/scan_occurrence_metrics.py`).  The script's per-row semantics are
embedded shallowly: pandas column operations are modelled row-wise, machine
floats are modelled as rationals, timestamps as integer day numbers
(days since 1970-01-01), and Python exceptions as `Except.error`.
-/

/-! ## Character and string utilities -/

/-- Whitespace characters recognised by Python's `str.strip` and `\s`. -/
def wsC (c : Char) : Bool :=
  c = ' ' || c = '\t' || c = '\n' || c = '\r' || c = '\x0b' || c = '\x0c'

/-- Python `str.strip` on a character list. -/
def trimChars (cs : List Char) : List Char :=
  ((cs.dropWhile wsC).reverse.dropWhile wsC).reverse

/-- Word characters for the regex `\b` boundary. -/
def wordChar (c : Char) : Bool :=
  c.isAlpha || c.isDigit || c = '_'

/-- Substring test: does `pat` occur inside `hay`? (models Python `in`). -/
def hasSub : List Char → List Char → Bool
  | _, [] => true
  | [], _ :: _ => false
  | h :: hs, p :: ps => (p :: ps).isPrefixOf (h :: hs) || hasSub hs (p :: ps)

/-- Boundary test for the character preceding a match position. -/
def startBound : Option Char → Bool
  | none => true
  | some c => !(wordChar c)

/-- Boundary test for the characters following a match. -/
def endBound : List Char → Bool
  | [] => true
  | c :: _ => !(wordChar c)

/-- Does `pat` occur in the text with `\b` word boundaries on both sides?
`prev` is the character just before the current scan position. -/
def bHit (pat : List Char) : Option Char → List Char → Bool
  | _, [] => false
  | prev, c :: rest =>
      (pat.isPrefixOf (c :: rest) && startBound prev &&
        endBound ((c :: rest).drop pat.length)) ||
      bHit pat (some c) rest

/-- Lowercase a string character-wise. -/
def lowerStr (s : String) : String :=
  String.mk (s.toList.map Char.toLower)

/-- Uppercase a character list. -/
def upperL (s : String) : List Char :=
  s.toList.map Char.toUpper

/-- Python `str.strip` on a `String`. -/
def trimStr (s : String) : String :=
  String.mk (trimChars s.toList)

/-- Value of a digit character. -/
def charDigit (c : Char) : Nat :=
  c.toNat - 48

/-- Parse a non-empty all-digit character list as a natural number. -/
def digitsValN (cs : List Char) : Option Nat :=
  if cs ≠ [] ∧ cs.all Char.isDigit then
    some (cs.foldl (fun a c => a * 10 + charDigit c) 0)
  else none

/-- Split a character list on the dash character. -/
def splitDash : List Char → List (List Char)
  | [] => [[]]
  | c :: rest =>
      match splitDash rest with
      | [] => [[c]]
      | g :: gs => if c = '-' then [] :: g :: gs else (c :: g) :: gs

/-! ## Calendar arithmetic (proleptic Gregorian, day numbers since 1970-01-01) -/

/-- Day number of a civil date (standard days-from-civil algorithm).
All uses in this development have `y ≥ 0`, so the integer divisions act on
non-negative operands. -/
def daysFromCivil (y m d : Int) : Int :=
  let y' := y - (if m ≤ 2 then 1 else 0)
  let era := (if 0 ≤ y' then y' else y' - 399) / 400
  let yoe := y' - era * 400
  let mp := m + (if 2 < m then -3 else 9)
  let doy := (153 * mp + 2) / 5 + d - 1
  let doe := yoe * 365 + yoe / 4 - yoe / 100 + doy
  era * 146097 + doe - 719468

/-- Civil date `(year, month, day)` of a day number (inverse algorithm). -/
def civilFromDays (z : Int) : Int × Int × Int :=
  let z' := z + 719468
  let era := (if 0 ≤ z' then z' else z' - 146096) / 146097
  let doe := z' - era * 146097
  let yoe := (doe - doe / 1460 + doe / 36524 - doe / 146096) / 365
  let y := yoe + era * 400
  let doy := doe - (365 * yoe + yoe / 4 - yoe / 100)
  let mp := (5 * doy + 2) / 153
  let d := doy - (153 * mp + 2) / 5 + 1
  let m := mp + (if mp < 10 then 3 else -9)
  (y + (if m ≤ 2 then 1 else 0), m, d)

/-- Is `y` a Gregorian leap year? -/
def isLeap (y : Nat) : Bool :=
  (y % 4 = 0 && y % 100 ≠ 0) || y % 400 = 0

/-- Days in a month. -/
def daysInMonth (y m : Nat) : Nat :=
  if m = 2 then (if isLeap y then 29 else 28)
  else if m = 4 ∨ m = 6 ∨ m = 9 ∨ m = 11 then 30
  else 31

/-! ## Date-text parsing

`pd.to_datetime` on a single string accepts a very large family of textual
formats.  The model below covers the formats the claims exercise: ISO
`YYYY-MM-DD`, `YYYY-MM`, and a bare four-digit year (pandas resolves a bare
year to January 1 of that year).  Texts outside these forms — in particular
long digit strings such as Excel serial numbers, and free text — fail to
parse, as they do under pandas. -/

/-- Model of `pd.to_datetime` on one string: returns the day number, or
`none` when the text does not parse as a date. -/
def parseDateText (s : String) : Option Int :=
  match splitDash (trimChars s.toList) with
  | [ys] =>
      match digitsValN ys with
      | some y =>
          if ys.length = 4 ∧ 1678 ≤ y ∧ y ≤ 2261 then
            some (daysFromCivil (y : Int) 1 1)
          else none
      | none => none
  | [ys, ms] =>
      match digitsValN ys, digitsValN ms with
      | some y, some m =>
          if ys.length = 4 ∧ 1678 ≤ y ∧ y ≤ 2261 ∧
              1 ≤ ms.length ∧ ms.length ≤ 2 ∧ 1 ≤ m ∧ m ≤ 12 then
            some (daysFromCivil (y : Int) (m : Int) 1)
          else none
      | _, _ => none
  | [ys, ms, ds] =>
      match digitsValN ys, digitsValN ms, digitsValN ds with
      | some y, some m, some d =>
          if ys.length = 4 ∧ 1678 ≤ y ∧ y ≤ 2261 ∧
              1 ≤ ms.length ∧ ms.length ≤ 2 ∧ 1 ≤ m ∧ m ≤ 12 ∧
              1 ≤ ds.length ∧ ds.length ≤ 2 ∧ 1 ≤ d ∧ d ≤ daysInMonth y m then
            some (daysFromCivil (y : Int) (m : Int) (d : Int))
          else none
      | _, _, _ => none
  | _ => none

/-- Model of `pd.to_numeric` on one string, restricted to integer-valued
text (the serial-date stage only ever consumes whole-day values). -/
def toNumericInt (s : String) : Option Int :=
  match trimChars s.toList with
  | '-' :: rest => (digitsValN rest).map (fun v => -(v : Int))
  | '+' :: rest => (digitsValN rest).map (fun v => (v : Int))
  | cs => (digitsValN cs).map (fun v => (v : Int))

/-- Range-split stage: when the text contains `/`, parse the part before the
first `/` (source: `ev.split("/",1)[0]`). -/
def rangeParse (s : String) : Option Int :=
  if s.toList.contains '/' then
    parseDateText (String.mk (s.toList.takeWhile (fun c => c ≠ '/')))
  else none

/-- Day number of the Excel serial epoch 1899-12-30. -/
def excelEpochDay : Int :=
  daysFromCivil 1899 12 30

/-- Serial-date stage: purely numeric text in the plausible range
`[50, 60000]` is taken as days after the 1899-12-30 epoch
(source: `num.between(50,60000)`; `base + to_timedelta(...)`). -/
def serialParse (s : String) : Option Int :=
  match toNumericInt s with
  | some n => if 50 ≤ n ∧ n ≤ 60000 then some (excelEpochDay + n) else none
  | none => none

/-- Leftmost `(19|20)\d\d` match in free text (source regex at the free-text
sniffing stage carries no boundary guards). -/
def yearAt : List Char → Option Int
  | c1 :: c2 :: c3 :: c4 :: _ =>
      if ((c1 = '1' && c2 = '9') || (c1 = '2' && c2 = '0')) &&
          c3.isDigit && c4.isDigit then
        some ((((charDigit c1 * 10 + charDigit c2) * 10 + charDigit c3) * 10
          + charDigit c4 : Nat) : Int)
      else none
  | _ => none

/-- Scan for the leftmost four-digit `19xx`/`20xx` year in a text. -/
def extractYearL : List Char → Option Int
  | [] => none
  | c :: rest =>
      match yearAt (c :: rest) with
      | some y => some y
      | none => extractYearL rest

/-- Day number of 2010-01-01, the post-threshold. -/
def t2010 : Int :=
  daysFromCivil 2010 1 1

example : excelEpochDay = -25569 := by decide
example : parseDateText "2016-01-01" = some (excelEpochDay + 42370) := by decide
example : parseDateText "42370" = none := by decide
example : extractYearL "specimen 1999".toList = some 1999 := by decide

/-! ## Records

`Record` is a semantically-resolved row of the streaming (per-species files)
path, after the per-chunk column coercions of `scan_tabular_files`
(lines 158-174): text cells are `Option String` (`none` = pandas NA) and
numeric columns carry the `pd.to_numeric(..., errors="coerce")` result.
`CRecord` is a row of the combined-workbook path after `getcol` alias
resolution (lines 267-289); it has a single resolved country column, a list
of candidate date-column cells, and the concatenated free text used by the
sniffing stage. -/

abbrev Cell := Option String

structure Record where
  countryCode : Cell := none
  country : Cell := none
  decimalLatitude : Option ℚ := none
  decimalLongitude : Option ℚ := none
  eventDate : Cell := none
  year : Option Int := none
  month : Option Int := none
  day : Option Int := none
  basisOfRecord : Cell := none
  establishmentMeans : Cell := none
  issues : Cell := none
  mediaType : Cell := none
  associatedMedia : Cell := none
  occurrenceRemarks : Cell := none
  locality : Cell := none
  habitat : Cell := none
  coordinateUncertaintyInMeters : Option ℚ := none
deriving DecidableEq

structure CRecord where
  species : Cell := none
  country : Cell := none
  lat : Option ℚ := none
  lon : Option ℚ := none
  dateTexts : List Cell := []
  year : Option Int := none
  month : Option Int := none
  day : Option Int := none
  basisOfRecord : Cell := none
  establishmentMeans : Cell := none
  issues : Cell := none
  mediaType : Cell := none
  occurrenceRemarks : Cell := none
  locality : Cell := none
  habitat : Cell := none
  unc : Option ℚ := none
  freeText : Option String := none
deriving DecidableEq

def emptyRecord : Record := {}

def emptyCRecord : CRecord := {}

/-- `fillna` on a cell. -/
def pyFill (c : Cell) (d : String) : String :=
  c.getD d

/-! ## Classification flags -/

/-- The US country tokens (source: `US_COUNTRY_TOKENS`). -/
def usTokens : List String :=
  ["US", "USA", "United States", "United States of America"]

/-- The GBIF quality-issue denylist (source: `GBIF_BAD_ISSUES`). -/
def gbifBadIssues : List String :=
  ["ZERO_COORDINATE", "COORDINATE_OUT_OF_RANGE", "COUNTRY_COORDINATE_MISMATCH",
   "COUNTRY_MISMATCH", "RECORDED_DATE_INVALID", "RECORDED_DATE_MISMATCH"]

/-- `series.isin(US_COUNTRY_TOKENS)` on one cell: NA gives `false`. -/
def tokB (c : Cell) : Bool :=
  match c with
  | none => false
  | some s => decide (s ∈ usTokens)

/-- The western longitude bound `-179.5`, written as a normalised rational
so that comparisons against it evaluate by kernel reduction. -/
def lonLow : ℚ := ⟨-359, 2, by norm_num, by norm_num⟩

/-- `lat.between(18,72) & lon.between(-179.5,-66)` on one row; NA coordinates
give `false` (`between` on NaN is false, and the final `.fillna(False)`). -/
def bboxB (la lo : Option ℚ) : Bool :=
  match la, lo with
  | some a, some o => decide ((18 : ℚ) ≤ a ∧ a ≤ 72 ∧ lonLow ≤ o ∧ o ≤ -66)
  | _, _ => false

lemma lonLow_eq : lonLow = -179.5 := by
  rw [lonLow, Rat.mk'_eq_divInt]
  norm_num [Rat.divInt_eq_div]

/-- Streaming-path US mask, row-wise (source lines 180-184). -/
def usFlagS (r : Record) : Bool :=
  tokB r.countryCode || tokB r.country || bboxB r.decimalLatitude r.decimalLongitude

/-- Combined-path US mask, row-wise (source lines 299-302): only the single
resolved country column is compared. -/
def usFlagC (rc : CRecord) : Bool :=
  tokB rc.country || bboxB rc.lat rc.lon

/-- `ev.fillna("").str.strip().ne("")` on one cell. -/
def cellStripNonempty (c : Cell) : Bool :=
  match c with
  | none => false
  | some s => decide (trimChars s.toList ≠ [])

/-- `pd.to_datetime(ev, errors="coerce")` on one cell. -/
def evParse (c : Cell) : Option Int :=
  match c with
  | none => none
  | some s => parseDateText s

/-- `dt >= Timestamp("2010-01-01")`; NaT gives `false`. -/
def dtGe2010 (d : Option Int) : Bool :=
  match d with
  | some x => decide (t2010 ≤ x)
  | none => false

/-- `year >= 2010`; NaN gives `false`. -/
def yearGe2010 (y : Option Int) : Bool :=
  match y with
  | some v => decide (2010 ≤ v)
  | none => false

/-- Streaming dated-any flag (source line 186). -/
def datedAnyS (r : Record) : Bool :=
  cellStripNonempty r.eventDate || r.year.isSome

/-- Streaming dated-full flag (source lines 187-189): a direct parse of the
date text, or all of year/month/day present. -/
def datedFullS (r : Record) : Bool :=
  (evParse r.eventDate).isSome || (r.year.isSome && r.month.isSome && r.day.isSome)

/-- Streaming post-2010 flag (source lines 191-192). -/
def post2010S (r : Record) : Bool :=
  dtGe2010 (evParse r.eventDate) || yearGe2010 r.year

/-- `lat.between(-90,90) & lon.between(-180,180)` row-wise (line 196). -/
def validB (la lo : Option ℚ) : Bool :=
  match la, lo with
  | some a, some o => decide ((-90 : ℚ) ≤ a ∧ a ≤ 90 ∧ (-180 : ℚ) ≤ o ∧ o ≤ 180)
  | _, _ => false

/-- `unc.notna() & (unc <= 2000)` row-wise (line 197). -/
def unc2kB (u : Option ℚ) : Bool :=
  match u with
  | some v => decide (v ≤ 2000)
  | none => false

/-- GBIF issue flag: any denylist code occurs as a substring of the
uppercased issues text (line 198). -/
def gbadB (issues : Cell) : Bool :=
  gbifBadIssues.any (fun code => hasSub (upperL (pyFill issues "")) code.toList)

/-- The captivity vocabulary of `CAPTIVE_HINTS`, expanded into literal
patterns: `\b(zoo|captive|captiv(e|ity)|pet\s?store|collection|terrarium|
museum\s?display)\b`, case-insensitive, with `\s?` expanded over the
whitespace alternatives. -/
def captivePatterns : List (List Char) :=
  (["zoo", "captive", "captivity", "collection", "terrarium"].map String.toList) ++
  ((["", " ", "\t", "\n", "\r", "\x0b", "\x0c"]).map
    (fun w => ("pet" ++ w ++ "store").toList)) ++
  ((["", " ", "\t", "\n", "\r", "\x0b", "\x0c"]).map
    (fun w => ("museum" ++ w ++ "display").toList))

/-- `CAPTIVE_HINTS.search(text)` as a boolean. -/
def captiveHintsB (t : String) : Bool :=
  captivePatterns.any (fun p => bHit p none (t.toList.map Char.toLower))

/-- Captive flag (lines 199-201): establishment means in the fixed token
set, or the hint regex over `remarks + " " + locality + " " + habitat`. -/
def captiveB (estm remarks locality habitat : Cell) : Bool :=
  decide (lowerStr (pyFill estm "") ∈ ["captive", "managed", "captive/managed"]) ||
  captiveHintsB (pyFill remarks "" ++ " " ++ pyFill locality "" ++ " " ++ pyFill habitat "")

/-- `cell.fillna("").ne("")`. -/
def neEmptyB (c : Cell) : Bool :=
  match c with
  | none => false
  | some s => decide (s ≠ "")

/-! ## Basis-of-record buckets -/

inductive Bucket where
  | human   -- "HumanObservation"
  | obs     -- "Observation"
  | mach    -- "MachineObservation"
  | pres    -- "PreservedSpecimen"
  | foss    -- "FossilSpecimen"
  | other   -- "Other"
deriving DecidableEq

/-- The canonical bucket of an exactly-matching Darwin-Core value. -/
def exactBucket (t : String) : Option Bucket :=
  if t = "HumanObservation" then some .human
  else if t = "Observation" then some .obs
  else if t = "MachineObservation" then some .mach
  else if t = "PreservedSpecimen" then some .pres
  else if t = "FossilSpecimen" then some .foss
  else none

/-- `basis_bucket` (source lines 71-86) on the stripped value: exact matches
pass through; otherwise uppercase, normalise space/hyphen to underscore, and
test keyword stems in the source's priority order. -/
def bucketOfTrimmed (t : String) : Bucket :=
  match exactBucket t with
  | some b => b
  | none =>
      let su := t.toList.map (fun c =>
        let u := Char.toUpper c
        if u = ' ' then '_' else if u = '-' then '_' else u)
      if hasSub su "HUMAN".toList then .human
      else if hasSub su "MACHINE".toList then .mach
      else if hasSub su "FOSSIL".toList then .foss
      else if hasSub su "PRESERVED".toList || hasSub su "SPECIMEN".toList then .pres
      else if hasSub su "OBSERVATION".toList then .obs
      else .other

/-- `basis_bucket` including the leading `str(val or "").strip()`. -/
def basis_bucket (v : String) : Bucket :=
  bucketOfTrimmed (trimStr v)

/-! ## Combined-path date-inference chain -/

/-- Stages 1-3 applied to one candidate date cell (source lines 318-330):
textual parse, then range split, then Excel serial. -/
def stageParse (c : Cell) : Option Int :=
  match c with
  | none => none
  | some s =>
      match parseDateText s with
      | some d => some d
      | none =>
          match rangeParse s with
          | some d => some d
          | none => serialParse s

/-- First successful candidate date column (source lines 314-333). -/
def chainDt : List Cell → Option Int
  | [] => none
  | c :: rest =>
      match stageParse c with
      | some d => some d
      | none => chainDt rest

/-- Free-text sniffing stage (source lines 334-347): full-text parse, else
the leftmost `19xx/20xx` year as January 1.  `none` free text models the
absence of any sniffable text column. -/
def sniffDt (rc : CRecord) : Option Int :=
  match rc.freeText with
  | none => none
  | some t =>
      match parseDateText t with
      | some d => some d
      | none => (extractYearL t.toList).map (fun y => daysFromCivil y 1 1)

/-- The resolved datetime of a combined-path record: the column chain, and
only for still-undated records the sniffing stage. -/
def inferDt (rc : CRecord) : Option Int :=
  match chainDt rc.dateTexts with
  | some d => some d
  | none => sniffDt rc

/-- Combined dated-any flag (source line 349). -/
def datedAnyC (rc : CRecord) : Bool :=
  (inferDt rc).isSome || rc.year.isSome

/-- Combined dated-full flag (source lines 350-351). -/
def datedFullC (rc : CRecord) : Bool :=
  (inferDt rc).isSome || (rc.year.isSome && rc.month.isSome && rc.day.isSome)

/-- Combined post-2010 flag (source line 352). -/
def post2010C (rc : CRecord) : Bool :=
  dtGe2010 (inferDt rc) || yearGe2010 rc.year

/-! ## Per-record classification, both paths -/

structure Flags where
  us : Bool
  datedAny : Bool
  datedFull : Bool
  post2010 : Bool
  validCoords : Bool
  unc2k : Bool
  gbad : Bool
  captive : Bool
  media : Bool
  bucket : Bucket
deriving DecidableEq

/-- Row classification of the streaming path (source lines 180-202). -/
def flagsS (r : Record) : Flags :=
  { us := usFlagS r
    datedAny := datedAnyS r
    datedFull := datedFullS r
    post2010 := post2010S r
    validCoords := validB r.decimalLatitude r.decimalLongitude
    unc2k := unc2kB r.coordinateUncertaintyInMeters
    gbad := gbadB r.issues
    captive := captiveB r.establishmentMeans r.occurrenceRemarks r.locality r.habitat
    media := neEmptyB r.mediaType || neEmptyB r.associatedMedia
    bucket := basis_bucket (pyFill r.basisOfRecord "Other") }

/-- Row classification of the combined-workbook path (source lines
299-360).  Media uses only the single resolved media column (line 360). -/
def flagsC (rc : CRecord) : Flags :=
  { us := usFlagC rc
    datedAny := datedAnyC rc
    datedFull := datedFullC rc
    post2010 := post2010C rc
    validCoords := validB rc.lat rc.lon
    unc2k := unc2kB rc.unc
    gbad := gbadB rc.issues
    captive := captiveB rc.establishmentMeans rc.occurrenceRemarks rc.locality rc.habitat
    media := neEmptyB rc.mediaType
    bucket := basis_bucket (pyFill rc.basisOfRecord "Other") }

example : (flagsS { emptyRecord with countryCode := some "US" }).us = true := by decide
example : (flagsS { emptyRecord with decimalLatitude := some 40, decimalLongitude := some (-75) }).us = true := by decide
example : (flagsS { emptyRecord with decimalLatitude := some 40, decimalLongitude := some 10 }).us = false := by decide
example : captiveHintsB "found near the zoo" = true := by decide
example : captiveHintsB "collections dept" = false := by decide
example : basis_bucket "preserved specimen" = .pres := by decide
example : basis_bucket "iNaturalist" = .other := by decide

/-! ## Aggregation

One `Agg` mirrors the counter dictionary of the source (lines 139-144):
`total_records`, `usa_records`, the five US-scoped flag counters used for
percentages, the remaining US-scoped counters, and the six basis buckets.
Each record contributes through `bump`, which adds `us` to `usa`, `flag ∧ us`
to each flag counter, and `us` to the bucket selected by `basis_bucket`
(the source adds `(b==k)&us` for each of the six keys `k`). -/

structure Agg where
  total : Nat := 0
  usa : Nat := 0
  datedAny : Nat := 0
  datedFull : Nat := 0
  post2010 : Nat := 0
  validCoords : Nat := 0
  unc2k : Nat := 0
  gbad : Nat := 0
  captive : Nat := 0
  media : Nat := 0
  bHuman : Nat := 0
  bObs : Nat := 0
  bMach : Nat := 0
  bPres : Nat := 0
  bFoss : Nat := 0
  bOther : Nat := 0
deriving DecidableEq

def Agg.zero : Agg := {}

/-- Indicator of a boolean (`int(mask.sum())` contribution of one row). -/
def b2n (b : Bool) : Nat :=
  cond b 1 0

/-- Fold one classified row into the running counters (source lines
176-216, row-wise). -/
def bump (a : Agg) (fl : Flags) : Agg :=
  { total := a.total + 1
    usa := a.usa + b2n fl.us
    datedAny := a.datedAny + b2n (fl.us && fl.datedAny)
    datedFull := a.datedFull + b2n (fl.us && fl.datedFull)
    post2010 := a.post2010 + b2n (fl.us && fl.post2010)
    validCoords := a.validCoords + b2n (fl.us && fl.validCoords)
    unc2k := a.unc2k + b2n (fl.us && fl.unc2k)
    gbad := a.gbad + b2n (fl.us && fl.gbad)
    captive := a.captive + b2n (fl.us && fl.captive)
    media := a.media + b2n (fl.us && fl.media)
    bHuman := a.bHuman + b2n (fl.us && decide (fl.bucket = .human))
    bObs := a.bObs + b2n (fl.us && decide (fl.bucket = .obs))
    bMach := a.bMach + b2n (fl.us && decide (fl.bucket = .mach))
    bPres := a.bPres + b2n (fl.us && decide (fl.bucket = .pres))
    bFoss := a.bFoss + b2n (fl.us && decide (fl.bucket = .foss))
    bOther := a.bOther + b2n (fl.us && decide (fl.bucket = .other)) }

/-- Fold a batch of classified rows. -/
def foldFlags (a : Agg) (l : List Flags) : Agg :=
  l.foldl bump a

/-- Contribution of a batch of streaming-path rows, folded from a zero
accumulator.  The first species row of a run equals this fold; later
species rows start from `seedFrom` of the running overall counters instead
(see `processFile` below). -/
def scanS (recs : List Record) : Agg :=
  foldFlags Agg.zero (recs.map flagsS)

/-- Aggregate of the combined-workbook path over a record list. -/
def scanC (rcs : List CRecord) : Agg :=
  foldFlags Agg.zero (rcs.map flagsC)

/-- Sum of the six basis-bucket counters. -/
def sumBuckets (a : Agg) : Nat :=
  a.bHuman + a.bObs + a.bMach + a.bPres + a.bFoss + a.bOther

/-! ## Finalisation -/

/-- Round a rational to the nearest integer, ties to even — the semantics of
Python's `round`. -/
def roundHalfEven (q : ℚ) : ℤ :=
  if q - ⌊q⌋ < 1/2 then ⌊q⌋
  else if 1/2 < q - ⌊q⌋ then ⌊q⌋ + 1
  else if ⌊q⌋ % 2 = 0 then ⌊q⌋ else ⌊q⌋ + 1

/-- `round(x, 4)` of the source, modelled exactly over rationals. -/
def round4 (q : ℚ) : ℚ :=
  (roundHalfEven (q * 10000) : ℚ) / 10000

/-- `denom = sp["usa_records"] or 1` (lines 218, 397). -/
def denomOf (a : Agg) : Nat :=
  max a.usa 1

structure FinalRow where
  pct_dated_any : ℚ
  pct_dated_full : ℚ
  pct_post_2010 : ℚ
  pct_uncertainty_le_2km : ℚ
  pct_captive_flagged : ℚ

/-- The five derived percentage fields (source lines 218-228, 397-404). -/
def finalizeAgg (a : Agg) : FinalRow :=
  { pct_dated_any := round4 ((a.datedAny : ℚ) / (denomOf a : ℚ))
    pct_dated_full := round4 ((a.datedFull : ℚ) / (denomOf a : ℚ))
    pct_post_2010 := round4 ((a.post2010 : ℚ) / (denomOf a : ℚ))
    pct_uncertainty_le_2km := round4 ((a.unc2k : ℚ) / (denomOf a : ℚ))
    pct_captive_flagged := round4 ((a.captive : ℚ) / (denomOf a : ℚ)) }

/-! ## Aggregation lemmas -/

lemma bucket_six (t : String) :
    bucketOfTrimmed t = .human ∨ bucketOfTrimmed t = .obs ∨
    bucketOfTrimmed t = .mach ∨ bucketOfTrimmed t = .pres ∨
    bucketOfTrimmed t = .foss ∨ bucketOfTrimmed t = .other := by
  unfold bucketOfTrimmed
  cases h : exactBucket t with
  | none =>
      simp only
      repeat' split
      all_goals simp
  | some b =>
      have hb : b = .human ∨ b = .obs ∨ b = .mach ∨ b = .pres ∨ b = .foss := by
        unfold exactBucket at h
        repeat' split at h
        all_goals simp_all
      simp only
      tauto

lemma bump_sum (a : Agg) (fl : Flags)
    (h : fl.bucket = .human ∨ fl.bucket = .obs ∨ fl.bucket = .mach ∨
      fl.bucket = .pres ∨ fl.bucket = .foss ∨ fl.bucket = .other) :
    sumBuckets (bump a fl) = sumBuckets a + b2n fl.us ∧
    (bump a fl).usa = a.usa + b2n fl.us := by
  rcases h with h | h | h | h | h | h <;>
    cases hu : fl.us <;>
      simp [bump, sumBuckets, b2n, h, hu] <;> omega

lemma b2n_and_le (x y : Bool) : b2n (x && y) ≤ b2n x := by
  cases x <;> cases y <;> simp [b2n]

/-- The flag counters used for percentages never exceed `usa`. -/
def CountersLe (a : Agg) : Prop :=
  a.datedAny ≤ a.usa ∧ a.datedFull ≤ a.usa ∧ a.post2010 ≤ a.usa ∧
  a.unc2k ≤ a.usa ∧ a.captive ≤ a.usa

lemma bump_counters_le (a : Agg) (fl : Flags) (h : CountersLe a) :
    CountersLe (bump a fl) := by
  obtain ⟨h1, h2, h3, h4, h5⟩ := h
  refine ⟨?_, ?_, ?_, ?_, ?_⟩ <;>
    simp only [bump] <;>
    exact Nat.add_le_add (by assumption) (b2n_and_le _ _)

lemma foldFlags_counters_le (l : List Flags) (a : Agg) (h : CountersLe a) :
    CountersLe (foldFlags a l) := by
  induction l generalizing a with
  | nil => exact h
  | cons fl t ih => exact ih _ (bump_counters_le a fl h)

lemma scanS_counters_le (recs : List Record) : CountersLe (scanS recs) :=
  foldFlags_counters_le _ _ (by simp [CountersLe, Agg.zero])

lemma flagsS_bucket_six (r : Record) :
    (flagsS r).bucket = .human ∨ (flagsS r).bucket = .obs ∨
    (flagsS r).bucket = .mach ∨ (flagsS r).bucket = .pres ∨
    (flagsS r).bucket = .foss ∨ (flagsS r).bucket = .other :=
  bucket_six _

lemma flagsC_bucket_six (rc : CRecord) :
    (flagsC rc).bucket = .human ∨ (flagsC rc).bucket = .obs ∨
    (flagsC rc).bucket = .mach ∨ (flagsC rc).bucket = .pres ∨
    (flagsC rc).bucket = .foss ∨ (flagsC rc).bucket = .other :=
  bucket_six _

lemma foldFlags_sum (l : List Flags)
    (hl : ∀ fl ∈ l, fl.bucket = .human ∨ fl.bucket = .obs ∨ fl.bucket = .mach ∨
      fl.bucket = .pres ∨ fl.bucket = .foss ∨ fl.bucket = .other)
    (a : Agg) (h : sumBuckets a = a.usa) :
    sumBuckets (foldFlags a l) = (foldFlags a l).usa := by
  induction l generalizing a with
  | nil => exact h
  | cons fl t ih =>
      have hb := hl fl (List.mem_cons_self _ _)
      have hs := bump_sum a fl hb
      exact ih (fun g hg => hl g (List.mem_cons_of_mem _ hg)) _ (by omega)

/-! ## Chunks and the streaming-file scan

A `Chunk` models one `read_csv` chunk (or one `json_normalize` frame of the
NDJSON reader): `present` lists the column names the frame actually has, and
`rows` carries the semantic cell values.  `chunk.get(name)` returns `None`
for an absent column, and the subsequent Series method call
(`.isin`, `.fillna`, `.between`, `.notna`, ...) raises `AttributeError`;
`requiredCols` lists the referenced columns in the order in which
`scan_tabular_files` would hit them (lines 180-202). -/

structure Chunk where
  present : List String
  rows : List Record

def requiredCols : List String :=
  ["countryCode", "country", "decimalLatitude", "decimalLongitude",
   "eventDate", "year", "month", "day", "basisOfRecord",
   "coordinateUncertaintyInMeters", "issues", "establishmentMeans",
   "occurrenceRemarks", "locality", "habitat", "mediaType", "associatedMedia"]

/-- Process one chunk into the running counters, or raise when a referenced
column is absent from the frame. -/
def processChunkInto (a : Agg) (c : Chunk) : Except String Agg :=
  match requiredCols.find? (fun n => !(c.present.contains n)) with
  | some n => .error ("AttributeError: " ++ n)
  | none => .ok (foldFlags a (c.rows.map flagsS))

/-- One discovered per-species source file.  `chunks` is `.error` when the
file cannot be opened (unreadable / permission denied); the exception is
raised at the first iteration of the `read_table` generator. -/
structure SourceFile where
  name : String
  chunks : Except String (List Chunk)

/-- Strip the recognised tabular extension from a file name
(source line 155). -/
def stripTabExt (name : String) : String :=
  let low := name.toList.map Char.toLower
  match [".csv.gz", ".tsv.gz", ".txt.gz", ".ndjson.gz",
         ".csv", ".tsv", ".txt", ".ndjson"].find?
      (fun suf => suf.toList.isSuffixOf low) with
  | some suf => String.mk (name.toList.take (name.toList.length - suf.length))
  | none => name

/-- Line 156 of the source: the fresh per-species accumulator is built from
the *running* overall dictionary by
`{k:(v.copy() if isinstance(v,dict) else 0) for k,v in overall.items()}` —
every scalar counter restarts at 0, but `basis_counts` (the only dict
value) is a copy of the overall bucket counts accumulated so far.  A
species after the first therefore starts with the previous species'
buckets already in its counters. -/
def seedFrom (o : Agg) : Agg :=
  { bHuman := o.bHuman, bObs := o.bObs, bMach := o.bMach,
    bPres := o.bPres, bFoss := o.bFoss, bOther := o.bOther }

/-- The chunk loop of one file (lines 158-216): each chunk's rows are
folded into the per-species accumulator and, with identical increments,
into the running overall accumulator. -/
def runChunks (sp ov : Agg) : List Chunk → Except String (Agg × Agg)
  | [] => .ok (sp, ov)
  | c :: cs =>
      match processChunkInto sp c with
      | .error e => .error e
      | .ok sp' =>
          match processChunkInto ov c with
          | .error e => .error e
          | .ok ov' => runChunks sp' ov' cs

/-- Process one file (lines 154-216): seed the per-species accumulator from
the running overall counters (line 156), then fold the file's chunks into
both; returns the finished per-species aggregate and the updated overall
aggregate. -/
def processFile (ov : Agg) (f : SourceFile) : Except String (Agg × Agg) :=
  match f.chunks with
  | .error e => .error e
  | .ok cs => runChunks (seedFrom ov) ov cs

abbrev SpeciesRows := List (String × Agg × FinalRow)

/-- The per-file loop of `scan_tabular_files`: any exception raised while
reading or processing a file propagates and aborts the remaining files. -/
def runFiles (st : SpeciesRows × Agg) : List SourceFile → Except String (SpeciesRows × Agg)
  | [] => .ok st
  | f :: fs =>
      match processFile st.2 f with
      | .error e => .error e
      | .ok (sp, ov') =>
          runFiles (st.1 ++ [(stripTabExt f.name, sp, finalizeAgg sp)], ov') fs

/-- Result of `scan_tabular_files`: the missing-directory branch returns a
bare empty list (source line 152: `return []`), every other successful exit
returns the `(species_rows, overall)` pair. -/
inductive TabResult where
  | bareEmpty
  | pair (rows : SpeciesRows) (overall : Agg)

/-- The environment an invocation runs in: whether the occurrence directory
exists, the discovered per-species files (in sorted order), and the
discovered workbook files. -/
structure Workbook where
  name : String
  readable : Bool
  headers : List String
  rows : List CRecord
deriving DecidableEq

structure Env where
  occDirExists : Bool
  files : List SourceFile
  workbooks : List Workbook

/-- `scan_tabular_files` (lines 137-230). -/
def scanTabular (env : Env) : Except String TabResult :=
  if env.occDirExists then
    match runFiles ([], Agg.zero) env.files with
    | .error e => .error e
    | .ok (rows, overall) => .ok (.pair rows overall)
  else .ok .bareEmpty

/-! ## Workbook scoring and selection (`scan_excel_combined`, lines 232-260) -/

/-- `DATE_PRIORITIES` (source lines 16-20). -/
def datePriorities : List String :=
  ["eventDate", "verbatimEventDate", "observed_on", "time_observed_at",
   "observation_date", "ObservationDate", "dateObserved", "date_observed",
   "date_collected", "collectionDate", "verbatim_date", "date", "Date"]

/-- Scan for a token of `DATE_REGEX`'s first alternation followed (at or
after the token's end) by `date`. -/
def tokenDateScan : List Char → Bool
  | [] => false
  | c :: rest =>
      (["event", "observ", "collect", "time"].any (fun t =>
        t.toList.isPrefixOf (c :: rest) &&
        hasSub ((c :: rest).drop t.toList.length) "date".toList)) ||
      tokenDateScan rest

/-- `DATE_REGEX.search(c)`: `(event|observ(ed|ation)?|collect(ed|ion)?|time)
.*date` anywhere, or the whole header exactly `date`, case-insensitively.
The optional `ed`/`ation`/`ion` suffixes are absorbed by the `.*`. -/
def dateRegexHit (c : String) : Bool :=
  let l := c.toList.map Char.toLower
  decide (l = "date".toList) || tokenDateScan l

/-- `score_excel` (lines 237-254): `(-1, 0)` when the header row cannot be
read; otherwise +5 per exact `DATE_PRIORITIES` hit, +1 per header matching
`DATE_REGEX`, +2 per present year/month/day header, paired with the column
count. -/
def scoreExcel (w : Workbook) : Int × Nat :=
  if w.readable then
    let cols := w.headers
    ((5 * ((datePriorities.filter (fun k => cols.contains k)).length : Int) +
      ((cols.filter (fun c => dateRegexHit c)).length : Int) +
      2 * ((["year", "month", "day"].filter
        (fun k => cols.any (fun c => lowerStr c = k))).length : Int)),
     cols.length)
  else (-1, 0)

/-- Python tuple comparison `a <= b` on `(score, ncols)` keys. -/
def keyLe (a b : Int × Nat) : Prop :=
  a.1 < b.1 ∨ (a.1 = b.1 ∧ a.2 ≤ b.2)

instance : DecidableRel keyLe := fun a b => by
  unfold keyLe
  exact inferInstance

/-- Descending, stable order on workbooks: `w` may precede `v` when `v`'s
key is at most `w`'s (Python `sorted(..., reverse=True)` is stable). -/
def wbRel (w v : Workbook) : Prop :=
  keyLe (scoreExcel v) (scoreExcel w)

instance : DecidableRel wbRel := fun w v => by
  unfold wbRel
  exact inferInstance

instance : IsTotal Workbook wbRel := by
  constructor
  intro a b
  unfold wbRel keyLe
  omega

instance : IsTrans Workbook wbRel := by
  constructor
  intro a b c hab hbc
  unfold wbRel keyLe at *
  rcases hab with h1 | ⟨h1, h1'⟩ <;> rcases hbc with h2 | ⟨h2, h2'⟩
  · left; omega
  · left; omega
  · left; omega
  · right; exact ⟨by omega, by omega⟩

/-- `ranked = sorted(..., key=..., reverse=True)` (line 256): stable
descending sort by `(score, ncols)`. -/
def rankWorkbooks (wbs : List Workbook) : List Workbook :=
  List.insertionSort wbRel wbs

/-- `p.name.endswith("_clean.xlsx")` (line 259). -/
def endsClean (name : String) : Bool :=
  "_clean.xlsx".toList.isSuffixOf name.toList

/-- The workbook the combined path loads (lines 256-261): the top-ranked
candidate, except that a top-ranked "cleaned" file whose key does not beat
the runner-up's is replaced by the runner-up. -/
def selectWorkbook (wbs : List Workbook) : Option Workbook :=
  match rankWorkbooks wbs with
  | [] => none
  | [c0] => some c0
  | c0 :: c1 :: _ =>
      if endsClean c0.name && decide (keyLe (scoreExcel c0) (scoreExcel c1)) then
        some c1
      else some c0

/-! ## Combined-path per-species rows and the driver -/

/-- Normalised species id of a combined-path row (line 274):
`fillna("")`, strip, whitespace runs replaced by `_`. -/
def collapseWsAux : Bool → List Char → List Char
  | _, [] => []
  | prevWs, c :: rest =>
      if wsC c then
        (if prevWs then collapseWsAux true rest else '_' :: collapseWsAux true rest)
      else c :: collapseWsAux false rest

def csid (rc : CRecord) : String :=
  String.mk (collapseWsAux false (trimChars (pyFill rc.species "").toList))

/-- Lexicographic character order (Python string comparison, used because
`groupby` sorts its keys). -/
def charsLe : List Char → List Char → Bool
  | [], _ => true
  | _ :: _, [] => false
  | a :: as, b :: bs => if a = b then charsLe as bs else decide (a < b)

def strRel (a b : String) : Prop :=
  charsLe a.toList b.toList = true

instance : DecidableRel strRel := fun a b => by
  unfold strRel
  exact inferInstance

/-- The per-species rows of the combined path (lines 376-405): groupby the
normalised species id (sorted keys), aggregate and finalise each group. -/
def combinedRows (rows : List CRecord) : SpeciesRows :=
  (List.insertionSort strRel ((rows.map csid).dedup)).map (fun s =>
    let a := scanC (rows.filter (fun rc => csid rc = s))
    (s, a, finalizeAgg a))

/-- `scan_excel_combined` at the dispatch level: `([], None)` when no
workbook exists, modelled as `none`. -/
def scanExcelCombined (env : Env) : Option (SpeciesRows × Agg) :=
  match selectWorkbook env.workbooks with
  | none => none
  | some wb => some (combinedRows wb.rows, scanC wb.rows)

inductive MainOutcome where
  | noFiles
  | wroteTabular (rows : SpeciesRows) (overall : Agg)
  | wroteCombined (rows : SpeciesRows) (overall : Agg)

/-- `main` (lines 408-421).  `rows, overall = scan_tabular_files()` unpacks
the returned value as a 2-tuple: the bare `[]` of the missing-directory
branch raises `ValueError` at the unpacking. -/
def mainRun (env : Env) : Except String MainOutcome :=
  match scanTabular env with
  | .error e => .error e
  | .ok .bareEmpty => .error "ValueError: not enough values to unpack"
  | .ok (.pair rows overall) =>
      if rows.isEmpty then
        match scanExcelCombined env with
        | none => .ok .noFiles
        | some (rows2, ov2) => .ok (.wroteCombined rows2 ov2)
      else .ok (.wroteTabular rows overall)

/-! ## Support lemmas: rounding, error propagation, ranking -/

lemma roundHalfEven_nonneg (q : ℚ) (h : 0 ≤ q) : 0 ≤ roundHalfEven q := by
  have hf : (0 : ℤ) ≤ ⌊q⌋ := Int.floor_nonneg.mpr h
  unfold roundHalfEven
  repeat' split
  all_goals omega

lemma roundHalfEven_le_of_le (q : ℚ) (n : ℤ) (h : q ≤ (n : ℚ)) :
    roundHalfEven q ≤ n := by
  have hf : ⌊q⌋ ≤ n := by
    have h2 := Int.floor_le_floor h
    simpa using h2
  have hfq : (⌊q⌋ : ℚ) ≤ q := Int.floor_le q
  unfold roundHalfEven
  split
  · exact hf
  · next h1 =>
      split
      · next h2 =>
          have h3 : (⌊q⌋ : ℚ) < q := by linarith
          have h4 : ⌊q⌋ < n := by exact_mod_cast lt_of_lt_of_le h3 h
          omega
      · next h2 =>
          have hr : q - ⌊q⌋ = 1/2 := le_antisymm (not_lt.mp h2) (not_lt.mp h1)
          have h3 : (⌊q⌋ : ℚ) < q := by linarith
          have h4 : ⌊q⌋ < n := by exact_mod_cast lt_of_lt_of_le h3 h
          split <;> omega

lemma round4_mem (q : ℚ) (h0 : 0 ≤ q) (h1 : q ≤ 1) :
    0 ≤ round4 q ∧ round4 q ≤ 1 := by
  unfold round4
  constructor
  · apply div_nonneg _ (by norm_num)
    exact_mod_cast roundHalfEven_nonneg _ (by positivity)
  · rw [div_le_one (by norm_num)]
    have h2 : roundHalfEven (q * 10000) ≤ (10000 : ℤ) := by
      apply roundHalfEven_le_of_le
      push_cast
      nlinarith
    exact_mod_cast h2

lemma round4_zero : round4 0 = 0 := by
  unfold round4 roundHalfEven
  norm_num

lemma processFile_error (ov : Agg) (f : SourceFile) (msg : String)
    (h : f.chunks = Except.error msg) : processFile ov f = Except.error msg := by
  unfold processFile
  rw [h]

lemma runFiles_append_error (pre : List SourceFile) (f : SourceFile)
    (rest : List SourceFile) (st st' : SpeciesRows × Agg) (msg : String)
    (hpre : runFiles st pre = .ok st')
    (herr : f.chunks = .error msg) :
    runFiles st (pre ++ f :: rest) = .error msg := by
  induction pre generalizing st with
  | nil =>
      rw [List.nil_append]
      simp only [runFiles]
      rw [processFile_error st.2 f msg herr]
  | cons g t ih =>
      rw [List.cons_append]
      simp only [runFiles] at hpre ⊢
      cases hg : processFile st.2 g with
      | error e =>
          rw [hg] at hpre
          exact absurd hpre (by simp)
      | ok p =>
          rw [hg] at hpre
          obtain ⟨sp, ov'⟩ := p
          exact ih _ hpre

lemma keyLe_antisymm {a b : Int × Nat} (h1 : keyLe a b) (h2 : keyLe b a) :
    a = b := by
  obtain ⟨x, y⟩ := a
  obtain ⟨u, v⟩ := b
  unfold keyLe at h1 h2
  simp only [Prod.mk.injEq]
  constructor <;> omega

lemma keyLe_refl (a : Int × Nat) : keyLe a a := by
  unfold keyLe
  omega

lemma rank_head_rel (wbs : List Workbook) (c0 c1 : Workbook)
    (rest : List Workbook) (hrank : rankWorkbooks wbs = c0 :: c1 :: rest) :
    wbRel c0 c1 := by
  have hs := List.sorted_insertionSort wbRel wbs
  rw [show List.insertionSort wbRel wbs = rankWorkbooks wbs from rfl, hrank] at hs
  exact (List.sorted_cons.mp hs).1 c1 (by simp)

/-! ## Claim theorems -/

lemma tokB_iff (c : Cell) :
    tokB c = true ↔ ∃ s, c = some s ∧ s ∈ usTokens := by
  cases c <;> simp [tokB]

lemma bboxB_iff (la lo : Option ℚ) :
    bboxB la lo = true ↔
      ∃ a o, la = some a ∧ lo = some o ∧
        18 ≤ a ∧ a ≤ 72 ∧ lonLow ≤ o ∧ o ≤ -66 := by
  cases la <;> cases lo <;> simp [bboxB]

/-- C10: for every record, inUS holds iff the country code or country name
matches the US token set, or the coordinates lie in the bounding box
`[18,72] × [-179.5,-66]`; in the combined path the single resolved country
column plays the role of code and name.  In particular: country `"US"`
without coordinates is in the US, coordinates `(40,-75)` without a country
are in the US, and coordinates `(40,10)` are not. -/
theorem c10_inUS_characterisation :
    (∀ r : Record, usFlagS r = true ↔
      ((∃ s, r.countryCode = some s ∧ s ∈ usTokens) ∨
       (∃ s, r.country = some s ∧ s ∈ usTokens) ∨
       (∃ a o, r.decimalLatitude = some a ∧ r.decimalLongitude = some o ∧
         18 ≤ a ∧ a ≤ 72 ∧ (-179.5 : ℚ) ≤ o ∧ o ≤ -66))) ∧
    (∀ rc : CRecord, usFlagC rc = true ↔
      ((∃ s, rc.country = some s ∧ s ∈ usTokens) ∨
       (∃ a o, rc.lat = some a ∧ rc.lon = some o ∧
         18 ≤ a ∧ a ≤ 72 ∧ (-179.5 : ℚ) ≤ o ∧ o ≤ -66))) ∧
    usFlagS { emptyRecord with countryCode := some "US" } = true ∧
    usFlagS { emptyRecord with decimalLatitude := some 40,
                               decimalLongitude := some (-75) } = true ∧
    usFlagS { emptyRecord with decimalLatitude := some 40,
                               decimalLongitude := some 10 } = false := by
  refine ⟨?_, ?_, by decide, by decide, by decide⟩
  · intro r
    rw [usFlagS, ← lonLow_eq]
    simp [Bool.or_eq_true, tokB_iff, bboxB_iff, or_assoc]
  · intro rc
    rw [usFlagC, ← lonLow_eq]
    simp [Bool.or_eq_true, tokB_iff, bboxB_iff, or_assoc]

/-- The aggregation fold itself assigns exactly one basis bucket (default
`Other`) to every US row: an aggregate accumulated *from zero* satisfies
`sum(buckets) = usa`.  This is the invariant the combined path's
per-species rows, the overall counters, and the first streaming species
row satisfy; streaming species rows after the first start from `seedFrom`
and break it — see the C6 theorem below. -/
theorem scan_bucket_sum :
    (∀ recs : List Record, sumBuckets (scanS recs) = (scanS recs).usa) ∧
    (∀ rcs : List CRecord, sumBuckets (scanC rcs) = (scanC rcs).usa) := by
  constructor
  · intro recs
    apply foldFlags_sum
    · intro fl hfl
      obtain ⟨r, _, rfl⟩ := List.mem_map.mp hfl
      exact flagsS_bucket_six r
    · rfl
  · intro rcs
    apply foldFlags_sum
    · intro fl hfl
      obtain ⟨rc, _, rfl⟩ := List.mem_map.mp hfl
      exact flagsC_bucket_six rc
    · rfl

/-- C8: when the textual and range stages fail on a combined-path record
whose single date text is purely numeric with value in `[50, 60000]`, the
chain resolves the date to that many days after the 1899-12-30 epoch. -/
theorem c8_serial_stage (rc : CRecord) (s : String) (n : Int)
    (hdt : rc.dateTexts = [some s])
    (h1 : parseDateText s = none)
    (h2 : rangeParse s = none)
    (h3 : toNumericInt s = some n)
    (h4 : 50 ≤ n) (h5 : n ≤ 60000) :
    inferDt rc = some (excelEpochDay + n) := by
  have hst : stageParse (some s) = some (excelEpochDay + n) := by
    simp only [stageParse, serialParse, h1, h2, h3]
    rw [if_pos ⟨h4, h5⟩]
  unfold inferDt
  rw [hdt]
  simp only [chainDt]
  rw [hst]

def rc42370 : CRecord := { emptyCRecord with dateTexts := [some "42370"] }

/-- C8 witness: raw date text `"42370"` with no other date field resolves
through the serial stage to 2016-01-01, a date in 2016. -/
theorem c8_witness :
    inferDt rc42370 = some (excelEpochDay + 42370) ∧
    (civilFromDays (excelEpochDay + 42370)).1 = 2016 :=
  ⟨c8_serial_stage rc42370 "42370" 42370 rfl (by decide) (by decide)
    (by decide) (by decide) (by decide), by decide⟩

/-- C4: with no occurrence directory, `scan_tabular_files` returns a bare
`[]` that `main` unpacks as a 2-tuple, raising `ValueError` — the run does
not terminate normally.  With an existing but empty directory and no
workbooks, the empty result is reported without an exception. -/
theorem c4_dispatch_behaviour :
    mainRun { occDirExists := false, files := [], workbooks := [] } =
      Except.error "ValueError: not enough values to unpack" ∧
    mainRun { occDirExists := true, files := [], workbooks := [] } =
      Except.ok MainOutcome.noFiles :=
  ⟨rfl, rfl⟩

/-- An unreadable per-species file (open raises). -/
def fileBad : SourceFile :=
  { name := "aaa.csv", chunks := .error "PermissionError" }

/-- A readable file with one well-formed chunk. -/
def fileGood : SourceFile :=
  { name := "bbb.csv", chunks := .ok [{ present := requiredCols, rows := [emptyRecord] }] }

def envTwoFiles : Env :=
  { occDirExists := true, files := [fileBad, fileGood], workbooks := [] }

/-- C3 counterexample: an unreadable first file aborts the entire scan; the
second, readable file is never processed (the whole run is an error). -/
theorem c3_cex : scanTabular envTwoFiles = Except.error "PermissionError" :=
  rfl

/-- C3 (amended): an unreadable source file raises out of the per-file loop
and aborts the run; files after it are not processed. -/
theorem c3_unreadable_aborts (env : Env) (pre : List SourceFile)
    (f : SourceFile) (rest : List SourceFile) (st : SpeciesRows × Agg)
    (msg : String)
    (hdir : env.occDirExists = true)
    (hfiles : env.files = pre ++ f :: rest)
    (hpre : runFiles ([], Agg.zero) pre = Except.ok st)
    (herr : f.chunks = Except.error msg) :
    scanTabular env = Except.error msg := by
  unfold scanTabular
  rw [if_pos hdir, hfiles,
    runFiles_append_error pre f rest ([], Agg.zero) st msg hpre herr]

def envOneBad : Env :=
  { occDirExists := true, files := [fileBad], workbooks := [] }

/-- C3 witness: the amended statement applied to a concrete environment. -/
theorem c3_witness : scanTabular envOneBad = Except.error "PermissionError" :=
  c3_unreadable_aborts envOneBad [] fileBad [] ([], Agg.zero)
    "PermissionError" rfl rfl rfl rfl

/-- A chunk whose frame lacks the `countryCode` column. -/
def chunkNoCountryCode : Chunk :=
  { present := requiredCols.filter (fun n => n ≠ "countryCode"), rows := [] }

/-- C2 counterexample: in the streaming path a missing canonical column is
not treated as all-missing — the chunk raises (`cc.isin` on `None`). -/
theorem c2_cex :
    processChunkInto Agg.zero chunkNoCountryCode =
      Except.error "AttributeError: countryCode" :=
  rfl

/-- C2 (amended): in the combined-workbook path every canonical field with
no resolvable source column is all-missing and all flags are
false/non-matching with no exception (likewise row-level all-missing cells
in the streaming path); but a streaming chunk only processes without raising
when every referenced column is present. -/
theorem c2_missing_field (a : Agg) (c : Chunk)
    (h : (requiredCols.all (fun n => c.present.contains n)) = true) :
    flagsC emptyCRecord =
      { us := false, datedAny := false, datedFull := false, post2010 := false,
        validCoords := false, unc2k := false, gbad := false, captive := false,
        media := false, bucket := .other } ∧
    flagsS emptyRecord =
      { us := false, datedAny := false, datedFull := false, post2010 := false,
        validCoords := false, unc2k := false, gbad := false, captive := false,
        media := false, bucket := .other } ∧
    processChunkInto a c = Except.ok (foldFlags a (c.rows.map flagsS)) := by
  refine ⟨by decide, by decide, ?_⟩
  unfold processChunkInto
  have hn : requiredCols.find? (fun n => !(c.present.contains n)) = none := by
    rw [List.find?_eq_none]
    intro x hx
    simpa using List.all_eq_true.mp h x hx
  rw [hn]

def chunkAllCols : Chunk := { present := requiredCols, rows := [] }

/-- C2 witness: a chunk carrying every referenced column processes without
an exception. -/
theorem c2_witness :
    processChunkInto Agg.zero chunkAllCols = Except.ok Agg.zero :=
  (c2_missing_field Agg.zero chunkAllCols (by decide)).2.2

/-- Cleaned workbook candidate with a strictly longer header row
(key `(6, 10)`). -/
def wbCleanBig : Workbook :=
  { name := "combined_records_v2_clean.xlsx", readable := true,
    headers := ["eventDate", "c1", "c2", "c3", "c4", "c5", "c6", "c7", "c8", "c9"],
    rows := [] }

/-- Non-cleaned candidate with the same score but fewer columns
(key `(6, 8)`). -/
def wbPlainSmall : Workbook :=
  { name := "combined_records_v2.xlsx", readable := true,
    headers := ["eventDate", "c1", "c2", "c3", "c4", "c5", "c6", "c7"],
    rows := [] }

/-- C9 counterexample: the top-ranked file is cleaned and its *score* is not
strictly higher than the other candidate's (both score 6), yet the cleaned
file is selected — the tie-break fires only on the full (score, column
count) key, not on the score alone. -/
theorem c9_cex :
    selectWorkbook [wbCleanBig, wbPlainSmall] = some wbCleanBig ∧
    (scoreExcel wbCleanBig).1 = (scoreExcel wbPlainSmall).1 ∧
    endsClean wbCleanBig.name = true :=
  ⟨rfl, rfl, rfl⟩

/-- C9 (amended): candidates are ranked by (score, column count)
descending; when the top-ranked file carries the cleaned suffix, the
second-ranked candidate is selected exactly when its full key equals the
top key (for a sorted ranking, "not strictly lower" means equal), and the
top candidate is selected otherwise.  Selection is a deterministic function
of the candidate list. -/
theorem c9_selection (wbs : List Workbook) (c0 c1 : Workbook)
    (rest : List Workbook)
    (hrank : rankWorkbooks wbs = c0 :: c1 :: rest)
    (hclean : endsClean c0.name = true) :
    (scoreExcel c1 = scoreExcel c0 → selectWorkbook wbs = some c1) ∧
    (scoreExcel c1 ≠ scoreExcel c0 → selectWorkbook wbs = some c0) := by
  have h01 : wbRel c0 c1 := rank_head_rel wbs c0 c1 rest hrank
  unfold selectWorkbook
  rw [hrank]
  constructor
  · intro heq
    have hk : keyLe (scoreExcel c0) (scoreExcel c1) := heq ▸ keyLe_refl _
    simp [hclean, hk]
  · intro hne
    have hk : ¬ keyLe (scoreExcel c0) (scoreExcel c1) := by
      intro hk
      exact hne (keyLe_antisymm h01 hk)
    simp [hclean, hk]

/-- Cleaned and non-cleaned candidates with identical keys `(6, 1)`. -/
def wbCleanTie : Workbook :=
  { name := "combined_records_v1_clean.xlsx", readable := true,
    headers := ["eventDate"], rows := [] }

def wbPlainTie : Workbook :=
  { name := "combined_records_v1.xlsx", readable := true,
    headers := ["date"], rows := [] }

/-- C9 witness: on a concrete tie the non-cleaned candidate is selected. -/
theorem c9_witness :
    selectWorkbook [wbCleanTie, wbPlainTie] = some wbPlainTie :=
  (c9_selection [wbCleanTie, wbPlainTie] wbCleanTie wbPlainTie []
    rfl rfl).1 rfl

/-- A combined-path record whose only date information is a four-digit year
inside free text. -/
def rcSniffYear : CRecord := { emptyCRecord with freeText := some "specimen 1999" }

/-- C5 counterexample: a record whose only recoverable date information is
a year sniffed out of free text is classified dated-full (the sniffing
stage materialises January 1 of that year as a full instant), contradicting
the claim that such a record is dated-any but not dated-full. -/
theorem c5_cex :
    datedAnyC rcSniffYear = true ∧ datedFullC rcSniffYear = true :=
  ⟨rfl, rfl⟩

/-- C5 (amended): dated-full requires a resolved instant or full
year/month/day components; since every resolved instant is a full date —
including instants materialised from year-only date text or a sniffed
year — only a record whose sole date information is the discrete year field
is dated-any but not dated-full.  In both paths, a record with a year field,
no date text, nothing sniffable, and a missing month is dated-any and not
dated-full. -/
theorem c5_year_only (r : Record) (rc : CRecord) (y y' : Int)
    (hev : r.eventDate = none) (hy : r.year = some y) (hm : r.month = none)
    (hdt : rc.dateTexts = []) (hy' : rc.year = some y')
    (hsn : sniffDt rc = none) (hm' : rc.month = none) :
    datedAnyS r = true ∧ datedFullS r = false ∧
    datedAnyC rc = true ∧ datedFullC rc = false := by
  have hinf : inferDt rc = none := by
    unfold inferDt
    rw [hdt]
    simp only [chainDt]
    exact hsn
  refine ⟨?_, ?_, ?_, ?_⟩
  · simp [datedAnyS, hy]
  · simp [datedFullS, evParse, hev, hm]
  · simp [datedAnyC, hy']
  · simp [datedFullC, hinf, hm']

def recYearOnly : Record := { emptyRecord with year := some 1995 }

def rcYearOnly : CRecord := { emptyCRecord with year := some 1995 }

/-- C5 witness: the amended statement at a concrete year-only record. -/
theorem c5_witness :
    datedAnyS recYearOnly = true ∧ datedFullS recYearOnly = false ∧
    datedAnyC rcYearOnly = true ∧ datedFullC rcYearOnly = false :=
  c5_year_only recYearOnly rcYearOnly 1995 1995 rfl rfl rfl rfl rfl rfl rfl

/-- `astype(str)` of one cell: pandas renders a missing value as `"nan"`
before the sniffing concatenation (line 341). -/
def pyStrFree (c : Cell) : String :=
  c.getD "nan"

/-- The combined-path view of a semantic record carried by a workbook with
the streaming (Darwin-Core) schema: `getcol('country','countryCode')`
resolves to the `country` column, `getcol('mediaType','associatedMedia')`
to the `mediaType` column, the candidate date columns are the single
`eventDate` column, and the sniffable text columns are `issues` and
`locality` (of the source's candidate list `voucher`, `flag_detailed`,
`issue`, `issues`, `locality`, `Remarks`, `remarks`, the Darwin-Core schema
has `issues` and `locality`). -/
def toCombined (r : Record) : CRecord :=
  { species := none
    country := r.country
    lat := r.decimalLatitude
    lon := r.decimalLongitude
    dateTexts := [r.eventDate]
    year := r.year
    month := r.month
    day := r.day
    basisOfRecord := r.basisOfRecord
    establishmentMeans := r.establishmentMeans
    issues := r.issues
    mediaType := r.mediaType
    occurrenceRemarks := r.occurrenceRemarks
    locality := r.locality
    habitat := r.habitat
    unc := r.coordinateUncertaintyInMeters
    freeText := some (pyStrFree r.issues ++ " " ++ pyStrFree r.locality) }

def recSerialText : Record := { emptyRecord with eventDate := some "42370" }

/-- C1 counterexample: the same semantic record (date text `"42370"`, all
other fields missing) is dated-full under the combined-workbook path (the
serial stage resolves it) but not under the streaming path (which has no
serial stage) — the two paths do not produce identical classification
flags. -/
theorem c1_cex :
    (flagsS recSerialText).datedFull = false ∧
    (flagsC (toCombined recSerialText)).datedFull = true :=
  ⟨rfl, rfl⟩

/-- C1 (amended): the two ingestion paths agree on every classification
flag for records outside their divergence points: when the record has no
`countryCode` (the combined path compares only its single resolved country
column), no date text and nothing sniffable (the combined path's richer
date chain — serial numbers, range split, free-text sniffing — cannot
fire), and no `associatedMedia` (the combined path reads only one media
column).  On such records the flags, and hence the records' contributions
to every aggregate counter, coincide. -/
theorem c1_path_agreement (r : Record)
    (hcc : r.countryCode = none)
    (hev : r.eventDate = none)
    (ham : r.associatedMedia = none)
    (hsn : sniffDt (toCombined r) = none) :
    flagsS r = flagsC (toCombined r) := by
  have hinf : inferDt (toCombined r) = none := by
    unfold inferDt
    have hdt : (toCombined r).dateTexts = [r.eventDate] := rfl
    rw [hdt, hev]
    simp only [chainDt, stageParse]
    exact hsn
  unfold flagsS flagsC
  simp only [Flags.mk.injEq]
  refine ⟨?_, ?_, ?_, ?_, rfl, rfl, rfl, rfl, ?_, rfl⟩
  · show usFlagS r = usFlagC (toCombined r)
    unfold usFlagS usFlagC
    rw [hcc]
    simp [tokB, toCombined]
  · show datedAnyS r = datedAnyC (toCombined r)
    unfold datedAnyS datedAnyC
    rw [hev, hinf]
    simp [cellStripNonempty, toCombined]
  · show datedFullS r = datedFullC (toCombined r)
    unfold datedFullS datedFullC
    rw [hev, hinf]
    simp [evParse, toCombined]
  · show post2010S r = post2010C (toCombined r)
    unfold post2010S post2010C
    rw [hev, hinf]
    simp [evParse, dtGe2010, toCombined]
  · show (neEmptyB r.mediaType || neEmptyB r.associatedMedia) =
      neEmptyB (toCombined r).mediaType
    rw [ham]
    simp [neEmptyB, toCombined]

def recUSName : Record := { emptyRecord with country := some "US" }

/-- C1 witness: the amended agreement at a concrete record. -/
theorem c1_witness :
    flagsS recUSName = flagsC (toCombined recUSName) :=
  c1_path_agreement recUSName rfl rfl rfl (by decide)

lemma pct_bound_aux (cnt usa : Nat) (h : cnt ≤ usa) :
    0 ≤ round4 ((cnt : ℚ) / ((max usa 1 : Nat) : ℚ)) ∧
    round4 ((cnt : ℚ) / ((max usa 1 : Nat) : ℚ)) ≤ 1 := by
  have hpos : (0 : ℚ) < ((max usa 1 : Nat) : ℚ) := by
    have h1 : 0 < max usa 1 := lt_of_lt_of_le Nat.zero_lt_one (Nat.le_max_right usa 1)
    exact_mod_cast h1
  apply round4_mem
  · positivity
  · rw [div_le_one hpos]
    have h2 : cnt ≤ max usa 1 := le_trans h (Nat.le_max_left usa 1)
    exact_mod_cast h2

lemma pct_zero_aux (cnt usa : Nat) (hc : cnt = 0) :
    round4 ((cnt : ℚ) / ((max usa 1 : Nat) : ℚ)) = 0 := by
  subst hc
  rw [Nat.cast_zero, zero_div, round4_zero]

/-- The percentage contract of one finalized species row, in the words of
the claim as amended: each field is the US-scoped counter divided by
`max(usa, 1)` rounded to four decimal places, each lies in [0, 1], and
each is 0 when `usa = 0`. -/
def PctOk (a : Agg) (f : FinalRow) : Prop :=
  (f.pct_dated_any = round4 ((a.datedAny : ℚ) / (denomOf a : ℚ)) ∧
   f.pct_dated_full = round4 ((a.datedFull : ℚ) / (denomOf a : ℚ)) ∧
   f.pct_post_2010 = round4 ((a.post2010 : ℚ) / (denomOf a : ℚ)) ∧
   f.pct_uncertainty_le_2km = round4 ((a.unc2k : ℚ) / (denomOf a : ℚ)) ∧
   f.pct_captive_flagged = round4 ((a.captive : ℚ) / (denomOf a : ℚ))) ∧
  ((0 ≤ f.pct_dated_any ∧ f.pct_dated_any ≤ 1) ∧
   (0 ≤ f.pct_dated_full ∧ f.pct_dated_full ≤ 1) ∧
   (0 ≤ f.pct_post_2010 ∧ f.pct_post_2010 ≤ 1) ∧
   (0 ≤ f.pct_uncertainty_le_2km ∧ f.pct_uncertainty_le_2km ≤ 1) ∧
   (0 ≤ f.pct_captive_flagged ∧ f.pct_captive_flagged ≤ 1)) ∧
  (a.usa = 0 →
    f.pct_dated_any = 0 ∧ f.pct_dated_full = 0 ∧ f.pct_post_2010 = 0 ∧
    f.pct_uncertainty_le_2km = 0 ∧ f.pct_captive_flagged = 0)

lemma pctOk_finalize (a : Agg) (h : CountersLe a) : PctOk a (finalizeAgg a) := by
  obtain ⟨h1, h2, h3, h4, h5⟩ := h
  refine ⟨⟨rfl, rfl, rfl, rfl, rfl⟩, ?_, ?_⟩
  · exact ⟨pct_bound_aux _ _ h1, pct_bound_aux _ _ h2, pct_bound_aux _ _ h3,
      pct_bound_aux _ _ h4, pct_bound_aux _ _ h5⟩
  · intro h0
    exact ⟨pct_zero_aux _ _ (by omega), pct_zero_aux _ _ (by omega),
      pct_zero_aux _ _ (by omega), pct_zero_aux _ _ (by omega),
      pct_zero_aux _ _ (by omega)⟩

lemma seedFrom_counters_le (o : Agg) : CountersLe (seedFrom o) := by
  simp [CountersLe, seedFrom]

lemma processChunkInto_counters_le (a a' : Agg) (c : Chunk)
    (h : processChunkInto a c = Except.ok a') (ha : CountersLe a) :
    CountersLe a' := by
  unfold processChunkInto at h
  cases hf : requiredCols.find? (fun n => !(c.present.contains n)) with
  | some n =>
      rw [hf] at h
      exact absurd h (by simp)
  | none =>
      rw [hf] at h
      injection h with h2
      subst h2
      exact foldFlags_counters_le _ _ ha

lemma runChunks_counters_le (cs : List Chunk) (sp ov sp' ov' : Agg)
    (h : runChunks sp ov cs = Except.ok (sp', ov')) (hsp : CountersLe sp) :
    CountersLe sp' := by
  induction cs generalizing sp ov with
  | nil =>
      simp only [runChunks, Except.ok.injEq, Prod.mk.injEq] at h
      obtain ⟨rfl, rfl⟩ := h
      exact hsp
  | cons c cs ih =>
      simp only [runChunks] at h
      cases h1 : processChunkInto sp c with
      | error e =>
          rw [h1] at h
          exact absurd h (by simp)
      | ok sp1 =>
          rw [h1] at h
          cases h2 : processChunkInto ov c with
          | error e =>
              rw [h2] at h
              exact absurd h (by simp)
          | ok ov1 =>
              rw [h2] at h
              exact ih _ _ h (processChunkInto_counters_le _ _ _ h1 hsp)

/-- A finished species row: its flag counters are bounded by its `usa`
count and its percentage part is the finalisation of its aggregate. -/
def RowOk (e : String × Agg × FinalRow) : Prop :=
  CountersLe e.2.1 ∧ e.2.2 = finalizeAgg e.2.1

lemma runFiles_rows_ok (fs : List SourceFile) (st st' : SpeciesRows × Agg)
    (h : runFiles st fs = Except.ok st')
    (hrows : ∀ e ∈ st.1, RowOk e) :
    ∀ e ∈ st'.1, RowOk e := by
  induction fs generalizing st with
  | nil =>
      simp only [runFiles, Except.ok.injEq] at h
      subst h
      exact hrows
  | cons f fs ih =>
      simp only [runFiles] at h
      cases h1 : processFile st.2 f with
      | error e =>
          rw [h1] at h
          exact absurd h (by simp)
      | ok p =>
          rw [h1] at h
          obtain ⟨sp, ov'⟩ := p
          refine ih _ h ?_
          intro e he
          rcases List.mem_append.mp he with he2 | he2
          · exact hrows e he2
          · rw [List.mem_singleton] at he2
            subst he2
            refine ⟨?_, rfl⟩
            unfold processFile at h1
            cases hc : f.chunks with
            | error e2 =>
                rw [hc] at h1
                exact absurd h1 (by simp)
            | ok cs =>
                rw [hc] at h1
                exact runChunks_counters_le cs _ _ _ _ h1 (seedFrom_counters_le _)

/-- C7 (amended): for every finalized species aggregate of either path —
every species row produced by a successful `scan_tabular_files` run, and
every per-species row of the combined-workbook path — each of the five
percentage fields equals the corresponding US-scoped counter divided by
`max(usa_records, 1)` *and rounded to four decimal places* (the source's
`round(x, 4)`); consequently every percentage field lies in [0, 1], and
when `usa_records = 0` every percentage field is 0. -/
theorem c7_percentages (env : Env) (rows : SpeciesRows) (overall : Agg)
    (hrun : scanTabular env = Except.ok (TabResult.pair rows overall)) :
    (∀ e ∈ rows, PctOk e.2.1 e.2.2) ∧
    (∀ (rcs : List CRecord), ∀ e ∈ combinedRows rcs, PctOk e.2.1 e.2.2) := by
  constructor
  · unfold scanTabular at hrun
    cases hb : env.occDirExists with
    | false =>
        rw [hb] at hrun
        simp at hrun
    | true =>
        rw [hb] at hrun
        rw [if_pos rfl] at hrun
        cases hr : runFiles ([], Agg.zero) env.files with
        | error e =>
            rw [hr] at hrun
            exact absurd hrun (by simp)
        | ok st =>
            rw [hr] at hrun
            obtain ⟨rows2, ov2⟩ := st
            simp only [Except.ok.injEq, TabResult.pair.injEq] at hrun
            obtain ⟨rfl, rfl⟩ := hrun
            intro e he
            obtain ⟨hcle, hfin⟩ := runFiles_rows_ok env.files ([], Agg.zero)
              (rows2, ov2) hr (by simp) e he
            rw [hfin]
            exact pctOk_finalize _ hcle
  · intro rcs e he
    unfold combinedRows at he
    obtain ⟨s, hs, rfl⟩ := List.mem_map.mp he
    exact pctOk_finalize _ (foldFlags_counters_le _ _ (by simp [CountersLe, Agg.zero]))

def recUSW : Record := { emptyRecord with countryCode := some "US" }

def fileW7 : SourceFile :=
  { name := "speciesW.csv",
    chunks := .ok [{ present := requiredCols, rows := [recUSW] }] }

def envW7 : Env := { occDirExists := true, files := [fileW7], workbooks := [] }

def aggW7 : Agg := { total := 1, usa := 1, bOther := 1 }

/-- C7 witness: the amended statement applied to a concrete one-file run,
yielding the percentage contract for its single species row. -/
theorem c7_witness : PctOk aggW7 (finalizeAgg aggW7) :=
  (c7_percentages envW7 [("speciesW", aggW7, finalizeAgg aggW7)] aggW7 rfl).1
    ("speciesW", aggW7, finalizeAgg aggW7) (List.mem_singleton.mpr rfl)

def recUSDated : Record :=
  { emptyRecord with countryCode := some "US", year := some 2000 }

def recUSBare : Record := { emptyRecord with countryCode := some "US" }

def recsThird : List Record := [recUSDated, recUSBare, recUSBare]

def fileCex7 : SourceFile :=
  { name := "sp3.csv",
    chunks := .ok [{ present := requiredCols, rows := recsThird }] }

def envCex7 : Env := { occDirExists := true, files := [fileCex7], workbooks := [] }

def aggCex7 : Agg := { total := 3, usa := 3, datedAny := 1, bOther := 3 }

/-- C7 counterexample: in a run over one file holding three US records of
which one is dated, the produced species row stores
`round(1/3, 4) = 0.3333`, which is not equal to the counter divided by
`max(usa, 1)` — the claim omits the rounding. -/
theorem c7_cex :
    scanTabular envCex7 = Except.ok (TabResult.pair
      [("sp3", aggCex7, finalizeAgg aggCex7)] aggCex7) ∧
    (finalizeAgg aggCex7).pct_dated_any ≠
      ((aggCex7.datedAny : ℚ) / (denomOf aggCex7 : ℚ)) := by
  refine ⟨rfl, ?_⟩
  have hfloor : ⌊((1 : ℚ) / 3) * 10000⌋ = 3333 := by
    rw [show ((1 : ℚ) / 3) * 10000 = 10000 / 3 by ring]
    norm_num [Int.floor_eq_iff]
  have hr4 : round4 ((1 : ℚ) / 3) = 3333 / 10000 := by
    unfold round4 roundHalfEven
    rw [hfloor]
    rw [if_pos (by rw [show ((1 : ℚ) / 3) * 10000 = 10000 / 3 by ring]; norm_num)]
    norm_num
  show round4 (((1 : Nat) : ℚ) / ((3 : Nat) : ℚ)) ≠ ((1 : Nat) : ℚ) / ((3 : Nat) : ℚ)
  push_cast
  rw [hr4]
  norm_num

/-- A US-located record with no other populated field. -/
def recUSonly : Record := { emptyRecord with countryCode := some "US" }

def fileSpA : SourceFile :=
  { name := "speciesA.csv",
    chunks := .ok [{ present := requiredCols, rows := [recUSonly] }] }

def fileSpB : SourceFile :=
  { name := "speciesB.csv",
    chunks := .ok [{ present := requiredCols, rows := [recUSonly] }] }

def envC6 : Env :=
  { occDirExists := true, files := [fileSpA, fileSpB], workbooks := [] }

def aggSpA : Agg := { total := 1, usa := 1, bOther := 1 }

def aggSpB : Agg := { total := 1, usa := 1, bOther := 2 }

def ovAB : Agg := { total := 2, usa := 2, bOther := 2 }

/-- C6: the claimed invariant `sum(basis buckets) = usa_records` is the
code's own stated intent (the spec's section 3 invariant) but the streaming
path violates it: line 156 seeds each new species' `basis_counts` with a
copy of the running overall bucket counts (only the scalar counters restart
at 0), so in a run over two per-species files with one US record each, the
second species row has bucket sum 2 against `usa_records = 1`.  The first
species row still satisfies the invariant. -/
theorem c6_bucket_seeding_bug :
    scanTabular envC6 = Except.ok (TabResult.pair
      [("speciesA", aggSpA, finalizeAgg aggSpA),
       ("speciesB", aggSpB, finalizeAgg aggSpB)] ovAB) ∧
    sumBuckets aggSpA = aggSpA.usa ∧
    sumBuckets aggSpB = 2 ∧ aggSpB.usa = 1 ∧ sumBuckets aggSpB ≠ aggSpB.usa :=
  ⟨rfl, rfl, rfl, rfl, by decide⟩
